import Mathlib

/-!
Shallow embedding of the two client-side state containers of the
ecommerceapp repository: the CartStore (`addToCart`, `removeFromCart`,
`updateCartQuantity`, `getCartTotal`, `getCartItemCount`, `clearCart`)
and the AuthStore (`loginUser`, `loginAdmin`, `logout`, `loadStoredAuth`,
`isCustomer`, `isAdmin`).

Modelling conventions:
- JavaScript numbers used as quantities are modelled as `ℤ` (the store
  accepts negative quantities), prices as `ℚ`, and the backend-owned
  `inventory` field as `ℕ` (the data model declares it a non-negative
  integer count).
- The cart is the `cart` array of the zustand store: a `List CartItem`.
- AsyncStorage is a record of the four keys the AuthStore touches; a
  storage operation that throws is modelled by a boolean outcome flag:
  on `false` the `catch` branch runs (log only, no `set`), so the
  operation leaves the state unchanged exactly as the source does.
-/

namespace ECom

/-- `Product` record from the cart store (stores/cartStore.ts). -/
structure Product where
  id : String
  name : String
  description : String
  price : ℚ
  image_base64 : String
  inventory : ℕ
deriving DecidableEq, Repr

/-- `CartItem` record: a product snapshot plus a quantity. -/
structure CartItem where
  product : Product
  quantity : ℤ
deriving DecidableEq, Repr

/-- The CartStore state: the `cart` array. -/
abbrev Cart := List CartItem

/-- `addToCart(product)` from the cart store: if an item with the same
product id exists, increment its quantity by 1 unless the current
quantity already reaches the argument record's inventory; otherwise
append a fresh item of quantity 1 unless the product is out of stock. -/
def addToCart (cart : Cart) (product : Product) : Cart :=
  match cart.find? (fun item => item.product.id == product.id) with
  | some existingItem =>
    if existingItem.quantity ≥ (product.inventory : ℤ) then
      cart
    else
      cart.map (fun item =>
        if item.product.id == product.id then
          { item with quantity := item.quantity + 1 }
        else item)
  | none =>
    if product.inventory = 0 then
      cart
    else
      cart ++ [{ product := product, quantity := 1 }]

/-- `removeFromCart(productId)`: keep the items whose product id differs. -/
def removeFromCart (cart : Cart) (productId : String) : Cart :=
  cart.filter (fun item => item.product.id != productId)

/-- `updateCartQuantity(productId, newQuantity)`: quantity 0 delegates to
`removeFromCart`; otherwise the update is rejected when a matching item
exists and the new quantity exceeds its snapshot inventory, and applied
by mapping over the array otherwise. -/
def updateCartQuantity (cart : Cart) (productId : String) (newQuantity : ℤ) : Cart :=
  if newQuantity = 0 then
    removeFromCart cart productId
  else
    match cart.find? (fun item => item.product.id == productId) with
    | some found =>
      if newQuantity > (found.product.inventory : ℤ) then
        cart
      else
        cart.map (fun item =>
          if item.product.id == productId then
            { item with quantity := newQuantity }
          else item)
    | none =>
      cart.map (fun item =>
        if item.product.id == productId then
          { item with quantity := newQuantity }
        else item)

/-- `getCartTotal()`: reduce over the cart summing price times quantity. -/
def getCartTotal (cart : Cart) : ℚ :=
  cart.foldl (fun sum item => sum + item.product.price * (item.quantity : ℚ)) 0

/-- `getCartItemCount()`: reduce over the cart summing the quantities. -/
def getCartItemCount (cart : Cart) : ℤ :=
  cart.foldl (fun sum item => sum + item.quantity) 0

/-- `clearCart()`: reset the cart to the empty array. -/
def clearCart (_ : Cart) : Cart := []

/-- One CartStore mutation call, for reasoning about call sequences. -/
inductive CartOp where
  | add (product : Product)
  | remove (productId : String)
  | update (productId : String) (newQuantity : ℤ)
  | clear
deriving Repr

/-- Apply one CartStore mutation to a cart state. -/
def applyCartOp (cart : Cart) : CartOp → Cart
  | .add p => addToCart cart p
  | .remove i => removeFromCart cart i
  | .update i q => updateCartQuantity cart i q
  | .clear => clearCart cart

/-- Run a sequence of CartStore mutations starting from the empty cart. -/
def runCartOps (ops : List CartOp) : Cart :=
  ops.foldl applyCartOp []

/-- The quantity-bounds invariant claimed by the spec: every item has
`1 ≤ quantity ≤` the inventory of its stored product snapshot. -/
def cartInv (cart : Cart) : Prop :=
  ∀ item ∈ cart, 1 ≤ item.quantity ∧ item.quantity ≤ (item.product.inventory : ℤ)

instance (cart : Cart) : Decidable (cartInv cart) :=
  inferInstanceAs (Decidable (∀ item ∈ cart, _ ∧ _))

/-- Carts reachable from the empty cart by mutation sequences in which
every `updateCartQuantity` call passes a nonnegative quantity and every
`addToCart` call whose product id is already present passes the same
inventory figure as the stored snapshot. -/
inductive GoodReach : Cart → Prop where
  | nil : GoodReach []
  | add (p : Product) (cart : Cart) : GoodReach cart →
      (∀ it ∈ cart, it.product.id = p.id → it.product.inventory = p.inventory) →
      GoodReach (addToCart cart p)
  | remove (i : String) (cart : Cart) : GoodReach cart →
      GoodReach (removeFromCart cart i)
  | update (i : String) (q : ℤ) (cart : Cart) : GoodReach cart → 0 ≤ q →
      GoodReach (updateCartQuantity cart i q)
  | clear (cart : Cart) : GoodReach cart → GoodReach (clearCart cart)

/-- Concrete product used by counterexamples: id "p", inventory 2. -/
def prodP : Product :=
  { id := "p", name := "n", description := "d", price := 1, image_base64 := "", inventory := 2 }

/-- Concrete product with id "r" and inventory 1. -/
def prodR1 : Product :=
  { id := "r", name := "n", description := "d", price := 1, image_base64 := "", inventory := 1 }

/-- Same id "r" as `prodR1` but different price and inventory. -/
def prodR3 : Product :=
  { id := "r", name := "n", description := "d", price := 2, image_base64 := "", inventory := 3 }

/-- Out-of-stock product with id "z". -/
def prodZ : Product :=
  { id := "z", name := "n", description := "d", price := 1, image_base64 := "", inventory := 0 }

/-- `User` record from the auth store (stores/authStore.ts). -/
structure User where
  id : String
  name : String
  phone : String
deriving DecidableEq, Repr

/-- `Admin` record from the auth store. -/
structure Admin where
  id : String
  username : String
  full_name : String
deriving DecidableEq, Repr

/-- Sample customer record for witnesses. -/
def userU : User := { id := "u1", name := "Ada", phone := "555" }

/-- Sample admin record for witnesses. -/
def adminA : Admin := { id := "a1", username := "boss", full_name := "Boss" }

/-- The in-memory AuthStore state: the five zustand fields. The
`userType` union `'customer' | 'admin' | null` is an optional string. -/
structure AuthState where
  isLoggedIn : Bool
  user : Option User
  admin : Option Admin
  token : Option String
  userType : Option String
deriving DecidableEq, Repr

/-- The four AsyncStorage keys the AuthStore reads and writes
(`auth_token`, `user_data`, `admin_data`, `user_type`); user/admin
payloads are kept typed, standing for their JSON serialisations. -/
structure AuthStorage where
  auth_token : Option String
  user_data : Option User
  admin_data : Option Admin
  user_type : Option String
deriving DecidableEq, Repr

/-- Combined process state: in-memory store plus durable storage. -/
structure AuthWorld where
  mem : AuthState
  store : AuthStorage
deriving DecidableEq, Repr

/-- The zustand initial state: logged out, everything null. -/
def initialAuthState : AuthState :=
  { isLoggedIn := false, user := none, admin := none, token := none, userType := none }

/-- AsyncStorage with none of the four keys present. -/
def emptyStorage : AuthStorage :=
  { auth_token := none, user_data := none, admin_data := none, user_type := none }

/-- `loginUser(token, user)`: `multiSet` writes the token, user payload
and role tag (it does not touch `admin_data`), then `set` installs the
customer session. `ok = false` models the write throwing: the `catch`
only logs, so neither memory nor storage changes. -/
def loginUser (w : AuthWorld) (ok : Bool) (token : String) (user : User) : AuthWorld :=
  if ok then
    { store := { w.store with
        auth_token := some token
        user_data := some user
        user_type := some "customer" }
      mem := { isLoggedIn := true, token := some token, user := some user,
               admin := none, userType := some "customer" } }
  else w

/-- `loginAdmin(token, admin)`: symmetric to `loginUser`; `multiSet`
writes the token, admin payload and role tag (it does not touch
`user_data`). -/
def loginAdmin (w : AuthWorld) (ok : Bool) (token : String) (admin : Admin) : AuthWorld :=
  if ok then
    { store := { w.store with
        auth_token := some token
        admin_data := some admin
        user_type := some "admin" }
      mem := { isLoggedIn := true, token := some token, admin := some admin,
               user := none, userType := some "admin" } }
  else w

/-- `logout()`: `multiRemove` clears all four keys, then `set` resets
the in-memory state; on a throwing remove (`ok = false`) nothing
changes. -/
def logout (w : AuthWorld) (ok : Bool) : AuthWorld :=
  if ok then
    { store := emptyStorage
      mem := { isLoggedIn := false, user := none, admin := none,
               token := none, userType := none } }
  else w

/-- `loadStoredAuth()`: `multiGet` reads the four keys; when the token
and role tag are truthy strings and the role-specific payload is
present, the corresponding session is restored, otherwise nothing
changes. Storage is never written. -/
def loadStoredAuth (w : AuthWorld) : AuthWorld :=
  match w.store.auth_token, w.store.user_type with
  | some t, some ty =>
    if t = "" ∨ ty = "" then w
    else if ty = "customer" then
      match w.store.user_data with
      | some u =>
        { w with mem := { isLoggedIn := true, token := some t, user := some u,
                          admin := none, userType := some "customer" } }
      | none => w
    else if ty = "admin" then
      match w.store.admin_data with
      | some a =>
        { w with mem := { isLoggedIn := true, token := some t, admin := some a,
                          user := none, userType := some "admin" } }
      | none => w
    else w
  | _, _ => w

/-- `isCustomer()`: logged in with the customer role tag. -/
def isCustomer (s : AuthState) : Bool :=
  s.isLoggedIn && s.userType == some "customer"

/-- `isAdmin()`: logged in with the admin role tag. -/
def isAdmin (s : AuthState) : Bool :=
  s.isLoggedIn && s.userType == some "admin"

/-- Worlds reachable from the initial in-memory state (with arbitrary
durable storage contents) by `loginUser`, `loginAdmin`, `logout` and
`loadStoredAuth` calls, each storage operation free to succeed or
fail. -/
inductive AuthReach : AuthWorld → Prop where
  | init (store : AuthStorage) : AuthReach ⟨initialAuthState, store⟩
  | loginUser (w : AuthWorld) (ok : Bool) (t : String) (u : User) :
      AuthReach w → AuthReach (loginUser w ok t u)
  | loginAdmin (w : AuthWorld) (ok : Bool) (t : String) (a : Admin) :
      AuthReach w → AuthReach (loginAdmin w ok t a)
  | logout (w : AuthWorld) (ok : Bool) : AuthReach w → AuthReach (logout w ok)
  | load (w : AuthWorld) : AuthReach w → AuthReach (loadStoredAuth w)

/-- Session mutual exclusion: user and admin are never both populated,
and `userType` tags exactly which one is. -/
def authInv (s : AuthState) : Prop :=
  (s.userType = some "customer" ↔ s.user.isSome) ∧
  (s.userType = some "admin" ↔ s.admin.isSome) ∧
  ¬(s.user.isSome ∧ s.admin.isSome)

theorem getCartItemCount_go (cart : Cart) (a : ℤ) :
    cart.foldl (fun s it => s + it.quantity) a = a + (cart.map (·.quantity)).sum := by
  induction cart generalizing a with
  | nil => simp
  | cons x xs ih => simp only [List.foldl_cons, List.map_cons, List.sum_cons, ih]; ring

theorem getCartItemCount_eq (cart : Cart) :
    getCartItemCount cart = (cart.map (·.quantity)).sum := by
  simpa [getCartItemCount] using getCartItemCount_go cart 0

theorem getCartTotal_go (cart : Cart) (a : ℚ) :
    cart.foldl (fun s it => s + it.product.price * (it.quantity : ℚ)) a
      = a + (cart.map (fun it => it.product.price * (it.quantity : ℚ))).sum := by
  induction cart generalizing a with
  | nil => simp
  | cons x xs ih => simp only [List.foldl_cons, List.map_cons, List.sum_cons, ih]; ring

theorem getCartTotal_eq (cart : Cart) :
    getCartTotal cart = (cart.map (fun it => it.product.price * (it.quantity : ℚ))).sum := by
  simpa [getCartTotal] using getCartTotal_go cart 0

theorem map_guard_id (cart : Cart) (pid : String) (f : CartItem → CartItem)
    (h : ∀ it ∈ cart, it.product.id ≠ pid) :
    cart.map (fun it => if it.product.id == pid then f it else it) = cart := by
  induction cart with
  | nil => rfl
  | cons x xs ih =>
    have hx : (x.product.id == pid) = false := by simpa using h x (by simp)
    have hxs := ih (fun it hit => h it (by simp [hit]))
    rw [List.map_cons, hxs, hx]
    simp

theorem filter_guard_id (cart : Cart) (pid : String)
    (h : ∀ it ∈ cart, it.product.id ≠ pid) :
    cart.filter (fun it => it.product.id != pid) = cart := by
  induction cart with
  | nil => rfl
  | cons x xs ih =>
    have hx : (x.product.id != pid) = true := by simpa using h x (by simp)
    have hxs := ih (fun it hit => h it (by simp [hit]))
    rw [List.filter_cons, hx, hxs]
    simp

theorem find?_guard_none (cart : Cart) (pid : String)
    (h : ∀ it ∈ cart, it.product.id ≠ pid) :
    cart.find? (fun it => it.product.id == pid) = none := by
  rw [List.find?_eq_none]
  intro x hx
  simpa using h x hx

theorem find?_middle (pre post : List CartItem) (item : CartItem) (pid : String)
    (hpre : ∀ x ∈ pre, x.product.id ≠ pid) (hit : item.product.id = pid) :
    (pre ++ item :: post).find? (fun it => it.product.id == pid) = some item := by
  induction pre with
  | nil => simp [List.find?_cons_of_pos, hit]
  | cons x xs ih =>
    have hx : x.product.id ≠ pid := hpre x (by simp)
    rw [List.cons_append, List.find?_cons_of_neg _ (by simpa using hx)]
    exact ih (fun it hitm => hpre it (by simp [hitm]))

theorem map_guard_middle (pre post : List CartItem) (item : CartItem) (pid : String)
    (f : CartItem → CartItem)
    (hpre : ∀ x ∈ pre, x.product.id ≠ pid) (hpost : ∀ x ∈ post, x.product.id ≠ pid)
    (hit : item.product.id = pid) :
    (pre ++ item :: post).map (fun it => if it.product.id == pid then f it else it)
      = pre ++ f item :: post := by
  rw [List.map_append, map_guard_id pre pid f hpre, List.map_cons,
    if_pos (by simpa using hit), map_guard_id post pid f hpost]

theorem map_guard_map_products (cart : Cart) (pid : String) (f : CartItem → CartItem)
    (hf : ∀ it, (f it).product = it.product) :
    ((cart.map (fun it => if it.product.id == pid then f it else it)).map (·.product))
      = cart.map (·.product) := by
  rw [List.map_map]
  apply List.map_congr_left
  intro x _
  by_cases h : (x.product.id == pid) = true
  · simp [Function.comp, h, hf]
  · simp [Function.comp, h]

theorem removeFromCart_products_sublist (cart : Cart) (pid : String) :
    ((removeFromCart cart pid).map (·.product)).Sublist (cart.map (·.product)) :=
  (List.filter_sublist cart).map (·.product)

theorem updateCartQuantity_products_sublist (cart : Cart) (pid : String) (q : ℤ) :
    ((updateCartQuantity cart pid q).map (·.product)).Sublist (cart.map (·.product)) := by
  by_cases hq : q = 0
  · rw [hq]
    show ((updateCartQuantity cart pid 0).map _).Sublist _
    rw [updateCartQuantity, if_pos rfl]
    exact removeFromCart_products_sublist cart pid
  · cases hf : cart.find? (fun it => it.product.id == pid) with
    | none =>
      simp only [updateCartQuantity, if_neg hq, hf]
      rw [map_guard_map_products cart pid (fun it => { it with quantity := q }) (fun it => rfl)]
    | some found =>
      by_cases hgt : q > (found.product.inventory : ℤ)
      · simp only [updateCartQuantity, if_neg hq, hf, if_pos hgt]
        exact List.Sublist.refl _
      · simp only [updateCartQuantity, if_neg hq, hf, if_neg hgt]
        rw [map_guard_map_products cart pid (fun it => { it with quantity := q }) (fun it => rfl)]

/-- C4: `updateCartQuantity(id, 0)` produces exactly the same cart state
as `removeFromCart(id)`, for every cart state and product id. -/
theorem updateCartQuantity_zero_eq_remove (cart : Cart) (pid : String) :
    updateCartQuantity cart pid 0 = removeFromCart cart pid := by
  simp [updateCartQuantity]

/-- C2: when the durable-storage write performed by `loginUser`
(symmetrically `loginAdmin`) fails, the in-memory session state is not
updated and remains exactly the prior state — the `set` call sits after
the awaited `multiSet` inside the `try`, so a throwing write skips it. -/
theorem login_write_failure_keeps_memory (w : AuthWorld) (t t2 : String)
    (u : User) (a : Admin) :
    (loginUser w false t u).mem = w.mem ∧ (loginAdmin w false t2 a).mem = w.mem := by
  simp [loginUser, loginAdmin]

/-- C3: `updateCartQuantity(id, q)` leaves the cart unchanged when no
item carries the id; leaves it unchanged (prior quantity retained) when
the matching item exists and `q` exceeds its snapshot inventory; and
otherwise, for `q ≠ 0`, sets the matching item's quantity to exactly
`q`. -/
theorem updateCartQuantity_semantics (cart : Cart) (pid : String) (q : ℤ) :
    ((∀ it ∈ cart, it.product.id ≠ pid) → updateCartQuantity cart pid q = cart) ∧
    (∀ found, cart.find? (fun it => it.product.id == pid) = some found →
      (found.product.inventory : ℤ) < q → updateCartQuantity cart pid q = cart) ∧
    (∀ found, cart.find? (fun it => it.product.id == pid) = some found →
      q ≤ (found.product.inventory : ℤ) → q ≠ 0 →
      updateCartQuantity cart pid q =
        cart.map (fun it =>
          if it.product.id == pid then { it with quantity := q } else it)) := by
  refine ⟨?_, ?_, ?_⟩
  · intro h
    by_cases hq : q = 0
    · rw [hq, updateCartQuantity, if_pos rfl, removeFromCart]
      exact filter_guard_id cart pid h
    · simp only [updateCartQuantity, if_neg hq, find?_guard_none cart pid h]
      exact map_guard_id cart pid _ h
  · intro found hfind hlt
    have hq : q ≠ 0 := by
      have : (0 : ℤ) ≤ (found.product.inventory : ℤ) := Int.natCast_nonneg _
      omega
    simp only [updateCartQuantity, if_neg hq, hfind, if_pos hlt]
  · intro found hfind hle hq
    simp only [updateCartQuantity, if_neg hq, hfind, if_neg (not_lt.mpr hle)]

/-- C3 witness: the three branches at concrete carts — absent id,
over-inventory rejection, and an in-range update. -/
theorem updateCartQuantity_semantics_witness :
    updateCartQuantity [⟨prodP, 1⟩] "z" 5 = [⟨prodP, 1⟩] ∧
    updateCartQuantity [⟨prodP, 1⟩] "p" 5 = [⟨prodP, 1⟩] ∧
    updateCartQuantity [⟨prodP, 1⟩] "p" 2 =
      [⟨prodP, 1⟩].map (fun it =>
        if it.product.id == "p" then { it with quantity := 2 } else it) :=
  ⟨(updateCartQuantity_semantics [⟨prodP, 1⟩] "z" 5).1 (by decide),
   (updateCartQuantity_semantics [⟨prodP, 1⟩] "p" 5).2.1 ⟨prodP, 1⟩ (by decide) (by decide),
   (updateCartQuantity_semantics [⟨prodP, 1⟩] "p" 2).2.2 ⟨prodP, 1⟩ (by decide) (by decide)
     (by decide)⟩

/-- C6: adding a product whose id is not yet in the cart, with positive
inventory, appends exactly one new CartItem of quantity 1 after the
unchanged existing items, and raises `getCartItemCount` by 1. -/
theorem addToCart_new_product (cart : Cart) (p : Product)
    (habsent : ∀ it ∈ cart, it.product.id ≠ p.id) (hinv : 0 < p.inventory) :
    addToCart cart p = cart ++ [{ product := p, quantity := 1 }] ∧
    getCartItemCount (addToCart cart p) = getCartItemCount cart + 1 := by
  have h1 : addToCart cart p = cart ++ [{ product := p, quantity := 1 }] := by
    simp only [addToCart, find?_guard_none cart p.id habsent,
      if_neg (Nat.pos_iff_ne_zero.mp hinv)]
  refine ⟨h1, ?_⟩
  rw [h1, getCartItemCount_eq, getCartItemCount_eq]
  simp

/-- C6 witness: adding id "p" to a cart holding only id "r". -/
theorem addToCart_new_product_witness :
    addToCart [⟨prodR1, 1⟩] prodP = [⟨prodR1, 1⟩, ⟨prodP, 1⟩] ∧
    getCartItemCount (addToCart [⟨prodR1, 1⟩] prodP) = getCartItemCount [⟨prodR1, 1⟩] + 1 :=
  addToCart_new_product [⟨prodR1, 1⟩] prodP (by decide) (by decide)

/-- C7: adding a product whose id is not in the cart but whose inventory
is zero leaves the cart exactly unchanged; the embedded operation is a
total function into cart states, so no error is raised or signalled —
the rejection is a silent no-op. -/
theorem addToCart_out_of_stock_noop (cart : Cart) (p : Product)
    (habsent : ∀ it ∈ cart, it.product.id ≠ p.id) (hzero : p.inventory = 0) :
    addToCart cart p = cart := by
  simp only [addToCart, find?_guard_none cart p.id habsent, if_pos hzero]

/-- C7 witness: adding the out-of-stock product "z" to a cart holding
id "p" changes nothing. -/
theorem addToCart_out_of_stock_noop_witness :
    addToCart [⟨prodP, 1⟩] prodZ = [⟨prodP, 1⟩] :=
  addToCart_out_of_stock_noop [⟨prodP, 1⟩] prodZ (by decide) (by decide)

/-- C9: when an item with the id is present, a negative `newQuantity` is
accepted: the item is neither removed nor is the update rejected — its
quantity becomes the negative value — and `getCartItemCount` afterwards
includes the negative contribution. -/
theorem updateCartQuantity_negative_accepted (pre post : List CartItem) (item : CartItem)
    (pid : String) (q : ℤ) (hid : item.product.id = pid)
    (hpre : ∀ x ∈ pre, x.product.id ≠ pid) (hpost : ∀ x ∈ post, x.product.id ≠ pid)
    (hq : q < 0) :
    updateCartQuantity (pre ++ item :: post) pid q
      = pre ++ { item with quantity := q } :: post ∧
    getCartItemCount (updateCartQuantity (pre ++ item :: post) pid q)
      = getCartItemCount (pre ++ item :: post) - item.quantity + q := by
  have hq0 : q ≠ 0 := by omega
  have hngt : ¬ q > (item.product.inventory : ℤ) := by
    have : (0 : ℤ) ≤ (item.product.inventory : ℤ) := Int.natCast_nonneg _
    omega
  have h1 : updateCartQuantity (pre ++ item :: post) pid q
      = pre ++ { item with quantity := q } :: post := by
    simp only [updateCartQuantity, if_neg hq0, find?_middle pre post item pid hpre hid,
      if_neg hngt]
    exact map_guard_middle pre post item pid _ hpre hpost hid
  refine ⟨h1, ?_⟩
  rw [h1, getCartItemCount_eq, getCartItemCount_eq]
  simp only [List.map_append, List.sum_append, List.map_cons, List.sum_cons]
  ring

/-- C9 witness: setting the quantity of item "p" to -3 keeps the item
and drives the unit count to -2. -/
theorem updateCartQuantity_negative_accepted_witness :
    updateCartQuantity [⟨prodR1, 1⟩, ⟨prodP, 2⟩] "p" (-3) = [⟨prodR1, 1⟩, ⟨prodP, -3⟩] ∧
    getCartItemCount (updateCartQuantity [⟨prodR1, 1⟩, ⟨prodP, 2⟩] "p" (-3)) = -2 := by
  have h := updateCartQuantity_negative_accepted [⟨prodR1, 1⟩] [] ⟨prodP, 2⟩ "p" (-3)
    (by decide) (by decide) (by decide) (by decide)
  simp only [List.cons_append, List.nil_append] at h
  refine ⟨h.1, ?_⟩
  rw [h.2]
  decide

/-- C10: a stored CartItem's product snapshot is never replaced or
mutated: re-adding a product record with the same id leaves the mapped
product list unchanged and only increments the quantity, the ceiling
comparison uses the argument record's inventory (the snapshot inventory
is unconstrained here), `getCartTotal` keeps charging the first-seen
snapshot price, and the update/remove operations only ever drop
product snapshots, never alter them. -/
theorem addToCart_snapshot_retention (pre post : List CartItem) (item : CartItem)
    (p : Product) (hid : item.product.id = p.id)
    (hpre : ∀ x ∈ pre, x.product.id ≠ p.id) (hpost : ∀ x ∈ post, x.product.id ≠ p.id) :
    ((addToCart (pre ++ item :: post) p).map (·.product)
      = (pre ++ item :: post).map (·.product)) ∧
    ((p.inventory : ℤ) ≤ item.quantity →
      addToCart (pre ++ item :: post) p = pre ++ item :: post) ∧
    (item.quantity < (p.inventory : ℤ) →
      addToCart (pre ++ item :: post) p
        = pre ++ { item with quantity := item.quantity + 1 } :: post) ∧
    (item.quantity < (p.inventory : ℤ) →
      getCartTotal (addToCart (pre ++ item :: post) p)
        = getCartTotal (pre ++ item :: post) + item.product.price) ∧
    (∀ pid q, ((updateCartQuantity (pre ++ item :: post) pid q).map (·.product)).Sublist
      ((pre ++ item :: post).map (·.product))) ∧
    (∀ pid, ((removeFromCart (pre ++ item :: post) pid).map (·.product)).Sublist
      ((pre ++ item :: post).map (·.product))) := by
  have hfind := find?_middle pre post item p.id hpre hid
  have hge : ∀ h : (p.inventory : ℤ) ≤ item.quantity,
      addToCart (pre ++ item :: post) p = pre ++ item :: post := by
    intro h
    simp only [addToCart, hfind, if_pos h]
  have hlt : ∀ h : item.quantity < (p.inventory : ℤ),
      addToCart (pre ++ item :: post) p
        = pre ++ { item with quantity := item.quantity + 1 } :: post := by
    intro h
    simp only [addToCart, hfind, if_neg (not_le.mpr h)]
    exact map_guard_middle pre post item p.id _ hpre hpost hid
  refine ⟨?_, hge, hlt, ?_, ?_, ?_⟩
  · by_cases h : (p.inventory : ℤ) ≤ item.quantity
    · rw [hge h]
    · rw [hlt (not_le.mp h)]
      simp
  · intro h
    rw [hlt h, getCartTotal_eq, getCartTotal_eq]
    simp only [List.map_append, List.sum_append, List.map_cons, List.sum_cons]
    push_cast
    ring
  · intro pid q
    exact updateCartQuantity_products_sublist (pre ++ item :: post) pid q
  · intro pid
    exact removeFromCart_products_sublist (pre ++ item :: post) pid

/-- C10 witness: the stored snapshot has inventory 1 and price 1; re-adding
the same id with inventory 3 and price 2 increments the quantity past the
stored ceiling (the argument record's inventory governs) and the total
still uses the stored price 1, giving 2 rather than 3. -/
theorem addToCart_snapshot_retention_witness :
    addToCart [⟨prodR1, 1⟩] prodR3 = [⟨prodR1, 2⟩] ∧
    getCartTotal (addToCart [⟨prodR1, 1⟩] prodR3) = 2 := by
  have h := addToCart_snapshot_retention [] [] ⟨prodR1, 1⟩ prodR3
    (by decide) (by decide) (by decide)
  simp only [List.cons_append, List.nil_append] at h
  refine ⟨h.2.2.1 (by decide), ?_⟩
  rw [h.2.2.2.1 (by decide), getCartTotal_eq]
  norm_num [prodR1]

/-- C8: with storage writes succeeding, after `loginUser` the store
satisfies `isCustomer() = true` and `isAdmin() = false`; a subsequent
`loginAdmin` flips both predicates and sets the store's user record to
null. -/
theorem login_role_predicates (w : AuthWorld) (t t2 : String) (u : User) (a : Admin) :
    isCustomer (loginUser w true t u).mem = true ∧
    isAdmin (loginUser w true t u).mem = false ∧
    isCustomer (loginAdmin (loginUser w true t u) true t2 a).mem = false ∧
    isAdmin (loginAdmin (loginUser w true t u) true t2 a).mem = true ∧
    (loginAdmin (loginUser w true t u) true t2 a).mem.user = none := by
  simp [loginUser, loginAdmin, isCustomer, isAdmin]

theorem map_guard_map_ids (cart : Cart) (pid : String) (f : CartItem → CartItem)
    (hf : ∀ it, (f it).product = it.product) :
    ((cart.map (fun it => if it.product.id == pid then f it else it)).map (·.product.id))
      = cart.map (·.product.id) := by
  rw [List.map_map]
  apply List.map_congr_left
  intro x _
  by_cases h : (x.product.id == pid) = true
  · simp [Function.comp, h, hf]
  · simp [Function.comp, h]

theorem removeFromCart_wf (cart : Cart) (i : String)
    (nd : (cart.map (·.product.id)).Nodup) (hb : cartInv cart) :
    ((removeFromCart cart i).map (·.product.id)).Nodup ∧ cartInv (removeFromCart cart i) := by
  constructor
  · exact List.Nodup.sublist ((List.filter_sublist cart).map (·.product.id)) nd
  · intro item hmem
    exact hb item (List.mem_of_mem_filter hmem)

theorem goodReach_wf (cart : Cart) (h : GoodReach cart) :
    (cart.map (·.product.id)).Nodup ∧ cartInv cart := by
  induction h with
  | nil =>
    refine ⟨List.nodup_nil, ?_⟩
    intro item hmem
    cases hmem
  | add p cart hr hcons ih =>
    obtain ⟨nd, hb⟩ := ih
    cases hf : cart.find? (fun it => it.product.id == p.id) with
    | some existing =>
      have hex_mem : existing ∈ cart := List.mem_of_find?_eq_some hf
      have hex_id : existing.product.id = p.id := by simpa using List.find?_some hf
      by_cases hge : existing.quantity ≥ (p.inventory : ℤ)
      · simp only [addToCart, hf, if_pos hge]
        exact ⟨nd, hb⟩
      · simp only [addToCart, hf, if_neg hge]
        constructor
        · rw [map_guard_map_ids cart p.id (fun it => { it with quantity := it.quantity + 1 })
            (fun it => rfl)]
          exact nd
        · intro item hmem
          obtain ⟨src, hsrc_mem, hsrc_eq⟩ := List.mem_map.mp hmem
          by_cases hid : (src.product.id == p.id) = true
          · have hsq : src = existing :=
              List.inj_on_of_nodup_map nd hsrc_mem hex_mem (by rw [hex_id]; simpa using hid)
            rw [← hsrc_eq, if_pos hid, hsq]
            have hbe := hb existing hex_mem
            have hinv : existing.product.inventory = p.inventory :=
              hcons existing hex_mem hex_id
            constructor
            · show 1 ≤ existing.quantity + 1
              omega
            · show existing.quantity + 1 ≤ (existing.product.inventory : ℤ)
              rw [hinv]
              omega
          · rw [← hsrc_eq, if_neg hid]
            exact hb src hsrc_mem
    | none =>
      by_cases h0 : p.inventory = 0
      · simp only [addToCart, hf, if_pos h0]
        exact ⟨nd, hb⟩
      · simp only [addToCart, hf, if_neg h0]
        have hnotmem : p.id ∉ cart.map (·.product.id) := by
          intro hmem
          obtain ⟨x, hx, hxid⟩ := List.mem_map.mp hmem
          have := List.find?_eq_none.mp hf x hx
          simp [hxid] at this
        constructor
        · rw [List.map_append]
          refine List.Nodup.append nd (by simp) ?_
          intro a ha hain
          simp only [List.map_cons, List.map_nil, List.mem_singleton] at hain
          rw [hain] at ha
          exact hnotmem ha
        · intro item hmem
          rcases List.mem_append.mp hmem with hmem | hmem
          · exact hb item hmem
          · simp only [List.mem_singleton] at hmem
            rw [hmem]
            refine ⟨le_refl 1, ?_⟩
            show (1 : ℤ) ≤ (p.inventory : ℤ)
            have : 1 ≤ p.inventory := Nat.one_le_iff_ne_zero.mpr h0
            exact_mod_cast this
  | remove i cart hr ih =>
    exact removeFromCart_wf cart i ih.1 ih.2
  | update i q cart hr hq ih =>
    obtain ⟨nd, hb⟩ := ih
    by_cases hq0 : q = 0
    · rw [hq0]
      have := removeFromCart_wf cart i nd hb
      simpa [updateCartQuantity] using this
    · cases hf : cart.find? (fun it => it.product.id == i) with
      | none =>
        have hnone : ∀ it ∈ cart, it.product.id ≠ i := by
          intro x hx
          have := List.find?_eq_none.mp hf x hx
          simpa using this
        simp only [updateCartQuantity, if_neg hq0, hf]
        rw [map_guard_id cart i _ hnone]
        exact ⟨nd, hb⟩
      | some found =>
        have hfound_mem : found ∈ cart := List.mem_of_find?_eq_some hf
        have hfound_id : found.product.id = i := by simpa using List.find?_some hf
        by_cases hgt : q > (found.product.inventory : ℤ)
        · simp only [updateCartQuantity, if_neg hq0, hf, if_pos hgt]
          exact ⟨nd, hb⟩
        · simp only [updateCartQuantity, if_neg hq0, hf, if_neg hgt]
          constructor
          · rw [map_guard_map_ids cart i (fun it => { it with quantity := q }) (fun it => rfl)]
            exact nd
          · intro item hmem
            obtain ⟨src, hsrc_mem, hsrc_eq⟩ := List.mem_map.mp hmem
            by_cases hid : (src.product.id == i) = true
            · have hsq : src = found :=
                List.inj_on_of_nodup_map nd hsrc_mem hfound_mem
                  (by rw [hfound_id]; simpa using hid)
              rw [← hsrc_eq, if_pos hid, hsq]
              constructor
              · show 1 ≤ q
                omega
              · show q ≤ (found.product.inventory : ℤ)
                omega
            · rw [← hsrc_eq, if_neg hid]
              exact hb src hsrc_mem
  | clear cart hr ih =>
    refine ⟨by simp [clearCart], ?_⟩
    intro item hmem
    simp [clearCart] at hmem

/-- C1 counterexample: the literal quantity-bounds invariant fails on
two call sequences from the empty cart — `updateCartQuantity` with a
negative quantity drives a quantity below 1, and re-adding an id with a
larger argument-record inventory drives the quantity above the stored
snapshot's inventory. -/
theorem cart_quantity_bounds_cex :
    ¬ cartInv (runCartOps [CartOp.add prodP, CartOp.update "p" (-1)]) ∧
    ¬ cartInv (runCartOps [CartOp.add prodR1, CartOp.add prodR3]) := by
  decide

/-- C1 (amended): starting from the empty cart, after any sequence of
addToCart / removeFromCart / updateCartQuantity / clearCart calls in
which every updateCartQuantity call passes a nonnegative quantity and
every addToCart call whose product id is already in the cart passes the
same inventory figure as the stored snapshot, every CartItem satisfies
1 ≤ quantity ≤ the inventory of its stored product snapshot. -/
theorem cart_quantity_bounds_amended (cart : Cart) (h : GoodReach cart) : cartInv cart :=
  (goodReach_wf cart h).2

/-- C1 witness: a concrete good sequence — add product "p", then set its
quantity to 2 — satisfies the invariant. -/
theorem cart_quantity_bounds_witness :
    cartInv (updateCartQuantity (addToCart [] prodP) "p" 2) :=
  cart_quantity_bounds_amended _
    (GoodReach.update "p" 2 _ (GoodReach.add prodP [] GoodReach.nil (by simp)) (by norm_num))

/-- C5: in every AuthStore state reachable from the initial state (over
arbitrary durable-storage contents) by loginUser, loginAdmin, logout and
loadStoredAuth, the user and admin fields are never both non-null and
`userType` tags which one, if any, is populated. -/
theorem auth_mutual_exclusion (w : AuthWorld) (h : AuthReach w) : authInv w.mem := by
  induction h with
  | init store => simp [authInv, initialAuthState]
  | loginUser w ok t u hr ih =>
    cases ok
    · simpa [loginUser] using ih
    · simp [loginUser, authInv]
  | loginAdmin w ok t a hr ih =>
    cases ok
    · simpa [loginAdmin] using ih
    · simp [loginAdmin, authInv]
  | logout w ok hr ih =>
    cases ok
    · simpa [logout] using ih
    · simp [logout, authInv]
  | load w hr ih =>
    rcases htok : w.store.auth_token with _ | t <;>
      rcases hty : w.store.user_type with _ | ty <;>
        rcases hud : w.store.user_data with _ | u <;>
          rcases had : w.store.admin_data with _ | a <;>
            simp only [loadStoredAuth, htok, hty, hud, had] <;>
              (try split_ifs) <;> first | exact ih | simp [authInv]

/-- C5 witness: the invariant at the state reached by a successful
customer login from a fresh process. -/
theorem auth_mutual_exclusion_witness :
    authInv (loginUser ⟨initialAuthState, emptyStorage⟩ true "tok" userU).mem :=
  auth_mutual_exclusion _
    (AuthReach.loginUser ⟨initialAuthState, emptyStorage⟩ true "tok" userU
      (AuthReach.init emptyStorage))

end ECom
